import Mathlib

/-!
Verification of the UVM (учебная виртуальная машина) toolchain: a shallow
embedding of the instruction codec and the execution engines of the
`etap5` revision (src/etap5/assembler.py, src/etap5/interpreter.py) and of
the `etap3` revision (src/etap3/interpretator.py), together with theorems
settling the specification's claims about them.

Conventions of the embedding:
* Python unbounded integers become `Nat` (values that are provably
  non-negative in the source) or `Int` (register/memory cells of `etap5`,
  which `SUB` can drive negative).
* Python `bytes` buffers become `List Nat`, one entry per byte.
* Python exceptions (`ValueError`, `IndexError`, `OverflowError`) become
  `Except`/`Option` results; each `raise` site is a distinct error value.
* Python lists indexed with a bounds check (or raising `IndexError` when
  the index is out of range) become total functions `Nat → _` guarded by
  the same explicit bound test as the source performs (for Python lists,
  the implicit `0 ≤ i < len` test of the runtime).
* The fetch-decode-execute `while` loops get an explicit fuel parameter;
  running out of fuel is reported as `none`, distinct from every outcome
  the Python code can produce.
-/

namespace UVM

/-- Functional update of a total function at one point; this is the shape
every register-file / data-memory write in the embedding takes. -/
def updFn {α : Type} (f : Nat → α) (i : Nat) (v : α) : Nat → α :=
  fun j => if j = i then v else f j

/-! ### Byte packing

Models Python's `int.to_bytes(5, byteorder='big')` /
`int.from_bytes(b, byteorder='big')` (used by `etap5`) and the
little-endian variants (used by `etap3`'s `disassamble_instruction`).
`to_bytes` raises `OverflowError` when the value needs more than 5 bytes;
that check lives in `Etap5.to_bytes_5_be` below. -/

/-- Big-endian base-256 digits of a (at most 40-bit) value, 5 bytes. -/
def toBytesBE (w : Nat) : List Nat :=
  [w / 2 ^ 32 % 256, w / 2 ^ 24 % 256, w / 2 ^ 16 % 256, w / 2 ^ 8 % 256, w % 256]

/-- Python `int.from_bytes(b, byteorder='big')`. -/
def fromBytesBE (bs : List Nat) : Nat :=
  bs.foldl (fun acc b => acc * 256 + b) 0

/-- Little-endian base-256 digits of a (at most 40-bit) value, 5 bytes. -/
def toBytesLE (w : Nat) : List Nat :=
  [w % 256, w / 2 ^ 8 % 256, w / 2 ^ 16 % 256, w / 2 ^ 24 % 256, w / 2 ^ 32 % 256]

/-- Python `int.from_bytes(b, byteorder='little')`. -/
def fromBytesLE (bs : List Nat) : Nat :=
  bs.foldr (fun b acc => acc * 256 + b) 0

/-! ### Instruction records

`Instr` is the normalized instruction record: operation name plus the
typed operands that `src/etap5/assembler.py`'s `translate_instruction`
stores in the `fields` dictionary (`B_*` first, then `C_*`). -/

inductive Instr : Type
  | NOP : Instr
  | NEQ (b_reg c_addr : Nat) : Instr
  | ADD (b_reg c_reg : Nat) : Instr
  | SUB (b_reg c_reg : Nat) : Instr
  | JMP (b_addr : Nat) : Instr
  | JZ (b_reg c_addr : Nat) : Instr
  | IN (b_const c_reg : Nat) : Instr
  | OUT (b_const c_reg : Nat) : Instr
  | LDI (b_const c_reg : Nat) : Instr
  | STORE (b_addr c_reg : Nat) : Instr
  | LOAD (b_reg c_addr : Nat) : Instr
deriving DecidableEq, Repr

namespace Etap5

/-- `INSTRUCTION_SIZE` of src/etap5/assembler.py and interpreter.py. -/
def INSTRUCTION_SIZE : Nat := 5

/-- `MEMORY_SIZE = 2 ** 20` of src/etap5/interpreter.py. -/
def MEMORY_SIZE : Nat := 2 ^ 20

/-- `MAX_CONST_26 = 0x3FFFFFF` of src/etap5/assembler.py. -/
def MAX_CONST_26 : Nat := 0x3FFFFFF

/-- The `OPCODES` dictionary of src/etap5/assembler.py, read off the
constructor of the record (the record's `op` string selects the same
entry). -/
def opcodeOf : Instr → Nat
  | .NOP => 0x0
  | .NEQ _ _ => 0x2
  | .ADD _ _ => 0x3
  | .SUB _ _ => 0x4
  | .JMP _ => 0x5
  | .JZ _ _ => 0x6
  | .IN _ _ => 0x7
  | .OUT _ _ => 0x8
  | .LDI _ _ => 0x9
  | .STORE _ _ => 0xA
  | .LOAD _ _ => 0xC

/-- The numeric validation performed by `translate_instruction`
(src/etap5/assembler.py lines 26-75) on an already-parsed record:
`parse_register` rejects a register operand outside `0..15`, and the
`IN`/`OUT` branch rejects a `value_code` above `MAX_CONST_26`.  No other
field is range-checked there: `LDI`'s `value` and every `addr` operand
(`JMP`, `JZ`, `LOAD`, `STORE`, `NEQ`) are stored unchecked.  (The
string-format checks of `parse_register` concern the textual source
format, which is outside the codec.) -/
def translate_accepts : Instr → Bool
  | .NOP => true
  | .NEQ b _ => decide (b < 16)
  | .ADD b c => decide (b < 16) && decide (c < 16)
  | .SUB b c => decide (b < 16) && decide (c < 16)
  | .JMP _ => true
  | .JZ b _ => decide (b < 16)
  | .IN b c => decide (b ≤ MAX_CONST_26) && decide (c < 16)
  | .OUT b c => decide (b ≤ MAX_CONST_26) && decide (c < 16)
  | .LDI _ c => decide (c < 16)
  | .STORE _ c => decide (c < 16)
  | .LOAD b _ => decide (b < 16)

/-- `encode_instruction` (src/etap5/assembler.py lines 78-110): builds the
40-bit instruction word with `opcode | (B << s_B) | (C << s_C)`. -/
def encode_instruction (i : Instr) : Nat :=
  match i with
  | .NOP => 0
  | .IN b c => opcodeOf i ||| b <<< 4 ||| c <<< 30
  | .OUT b c => opcodeOf i ||| b <<< 4 ||| c <<< 30
  | .LDI b c => opcodeOf i ||| b <<< 4 ||| c <<< 30
  | .ADD b c => opcodeOf i ||| b <<< 4 ||| c <<< 8
  | .SUB b c => opcodeOf i ||| b <<< 4 ||| c <<< 8
  | .JMP b => opcodeOf i ||| b <<< 4
  | .JZ b c => opcodeOf i ||| b <<< 4 ||| c <<< 8
  | .LOAD b c => opcodeOf i ||| b <<< 4 ||| c <<< 8
  | .NEQ b c => opcodeOf i ||| b <<< 4 ||| c <<< 8
  | .STORE b c => opcodeOf i ||| b <<< 4 ||| c <<< 35

/-- `instruction.to_bytes(INSTRUCTION_SIZE, byteorder='big')`: Python
raises `OverflowError` when the word does not fit in 5 bytes. -/
def to_bytes_5_be (w : Nat) : Except String (List Nat) :=
  if w < 2 ^ 40 then .ok (toBytesBE w) else .error "int too big to convert"

/-- The per-record assembler pipeline of src/etap5/assembler.py:
`translate_instruction` (validation) followed by `encode_instruction`
and `to_bytes`. -/
def assemble (i : Instr) : Except String (List Nat) :=
  if translate_accepts i then to_bytes_5_be (encode_instruction i)
  else .error "translate_instruction rejected a field"

/-- The `OPCODES` dictionary of src/etap5/interpreter.py (opcode nibble to
operation name). -/
def OPCODES (code : Nat) : Option String :=
  if code = 0x0 then some "NOP"
  else if code = 0x2 then some "NEQ"
  else if code = 0x3 then some "ADD"
  else if code = 0x4 then some "SUB"
  else if code = 0x5 then some "JMP"
  else if code = 0x6 then some "JZ"
  else if code = 0x7 then some "IN"
  else if code = 0x8 then some "OUT"
  else if code = 0x9 then some "LDI"
  else if code = 0xA then some "STORE"
  else if code = 0xC then some "LOAD"
  else none

/-- The field extraction performed by `run_cycle`
(src/etap5/interpreter.py lines 90-140): low nibble selects the entry of
`OPCODES`, and the `B`/`C` fields are taken with the per-opcode shifts and
masks of the corresponding branch.  `JMP`'s `B_addr` is the unmasked
`instruction >> 4`, exactly as in line 103. -/
def decode_instruction (instruction : Nat) : Option Instr :=
  let opcode := instruction &&& 0xF
  match OPCODES opcode with
  | none => none
  | some op_name =>
    if op_name = "NOP" then some .NOP
    else if op_name = "JMP" then some (.JMP (instruction >>> 4))
    else if op_name = "JZ" then
      some (.JZ (instruction >>> 4 &&& 0xF) (instruction >>> 8 &&& 0x7FFFFFFF))
    else if op_name = "IN" then
      some (.IN (instruction >>> 4 &&& 0x3FFFFFF) (instruction >>> 30 &&& 0xF))
    else if op_name = "OUT" then
      some (.OUT (instruction >>> 4 &&& 0x3FFFFFF) (instruction >>> 30 &&& 0xF))
    else if op_name = "LDI" then
      some (.LDI (instruction >>> 4 &&& 0x3FFFFFF) (instruction >>> 30 &&& 0xF))
    else if op_name = "STORE" then
      some (.STORE (instruction >>> 4 &&& 0x7FFFFFFF) (instruction >>> 35 &&& 0xF))
    else if op_name = "ADD" then
      some (.ADD (instruction >>> 4 &&& 0xF) (instruction >>> 8 &&& 0xF))
    else if op_name = "SUB" then
      some (.SUB (instruction >>> 4 &&& 0xF) (instruction >>> 8 &&& 0xF))
    else if op_name = "LOAD" then
      some (.LOAD (instruction >>> 4 &&& 0xF) (instruction >>> 8 &&& 0x7FFFFFFF))
    else if op_name = "NEQ" then
      some (.NEQ (instruction >>> 4 &&& 0xF) (instruction >>> 8 &&& 0x7FFFFFFF))
    else none

/-- The legal field ranges of the Field Layout Table: register fields are
4 bits, immediate constants 26 bits, address fields 31 bits. -/
def legal : Instr → Bool
  | .NOP => true
  | .NEQ b c => decide (b < 16) && decide (c < 2 ^ 31)
  | .ADD b c => decide (b < 16) && decide (c < 16)
  | .SUB b c => decide (b < 16) && decide (c < 16)
  | .JMP b => decide (b < 2 ^ 31)
  | .JZ b c => decide (b < 16) && decide (c < 2 ^ 31)
  | .IN b c => decide (b < 2 ^ 26) && decide (c < 16)
  | .OUT b c => decide (b < 2 ^ 26) && decide (c < 16)
  | .LDI b c => decide (b < 2 ^ 26) && decide (c < 16)
  | .STORE b c => decide (b < 2 ^ 31) && decide (c < 16)
  | .LOAD b c => decide (b < 16) && decide (c < 2 ^ 31)

/-! ### The `etap5` execution engine

Shallow embedding of `class VirtualMachine` and `run_cycle` of
src/etap5/interpreter.py.  The Python attribute names are kept.  Register
and data-memory cells are `Int` because `_execute_ALU`'s `SUB` can drive a
cell negative and no masking is performed anywhere in this revision. -/

structure VMState where
  instruction_memory : List Nat
  pc : Nat
  registers : Nat → Int
  data_memory : Nat → Int
  input_data : List Int
  input_ptr : Nat
  output_log : List (Int × Nat)

/-- Runtime faults of `run_cycle`: the explicit `raise ValueError` for an
unknown opcode, and the `IndexError` Python raises when a register or
data-memory list is indexed out of range. -/
inductive Fault : Type
  | unknownOpcode (op pc : Nat) : Fault
  | regIndex (i : Nat) : Fault
  | memIndex (a : Nat) : Fault
deriving DecidableEq, Repr

/-- Read `self.registers[i]` (a 16-element Python list: out of range
raises `IndexError`). -/
def readReg (regs : Nat → Int) (i : Nat) : Except Fault Int :=
  if i < 16 then .ok (regs i) else .error (.regIndex i)

/-- Write `self.registers[i] = v`. -/
def writeReg (regs : Nat → Int) (i : Nat) (v : Int) :
    Except Fault (Nat → Int) :=
  if i < 16 then .ok (updFn regs i v) else .error (.regIndex i)

/-- Read `self.data_memory[a]` (a `MEMORY_SIZE`-element list). -/
def readMem (mem : Nat → Int) (a : Nat) : Except Fault Int :=
  if a < MEMORY_SIZE then .ok (mem a) else .error (.memIndex a)

/-- Write `self.data_memory[a] = v`. -/
def writeMem (mem : Nat → Int) (a : Nat) (v : Int) :
    Except Fault (Nat → Int) :=
  if a < MEMORY_SIZE then .ok (updFn mem a v) else .error (.memIndex a)

/-- `_execute_IN` (src/etap5/interpreter.py lines 42-50). -/
def execute_IN (s : VMState) (target_reg io_code : Nat) :
    Except Fault VMState :=
  if s.input_ptr < s.input_data.length then
    match writeReg s.registers target_reg (s.input_data.getD s.input_ptr 0) with
    | .error f => .error f
    | .ok regs => .ok { s with registers := regs, input_ptr := s.input_ptr + 1 }
  else
    match writeReg s.registers target_reg 0 with
    | .error f => .error f
    | .ok regs => .ok { s with registers := regs }

/-- `_execute_OUT` (lines 52-55): appends `(reg value, io_code)` to the
output log. -/
def execute_OUT (s : VMState) (source_reg io_code : Nat) :
    Except Fault VMState :=
  match readReg s.registers source_reg with
  | .error f => .error f
  | .ok value => .ok { s with output_log := s.output_log ++ [(value, io_code)] }

/-- `_execute_LDI` (lines 57-58). -/
def execute_LDI (s : VMState) (target_reg : Nat) (value : Int) :
    Except Fault VMState :=
  match writeReg s.registers target_reg value with
  | .error f => .error f
  | .ok regs => .ok { s with registers := regs }

/-- `_execute_LOAD` (lines 60-61). -/
def execute_LOAD (s : VMState) (target_reg addr : Nat) :
    Except Fault VMState :=
  match readMem s.data_memory addr with
  | .error f => .error f
  | .ok v =>
    match writeReg s.registers target_reg v with
    | .error f => .error f
    | .ok regs => .ok { s with registers := regs }

/-- `_execute_STORE` (lines 63-64). -/
def execute_STORE (s : VMState) (addr source_reg : Nat) :
    Except Fault VMState :=
  match readReg s.registers source_reg with
  | .error f => .error f
  | .ok v =>
    match writeMem s.data_memory addr v with
    | .error f => .error f
    | .ok mem => .ok { s with data_memory := mem }

/-- `_execute_ALU` (lines 66-75): plain Python integer `+`/`-`, no 32-bit
mask.  (The source's `result` would be unbound for any other `op_type`;
the function is only called with `"ADD"` or `"SUB"`.) -/
def execute_ALU (s : VMState) (op_type : String) (target_reg source_reg : Nat) :
    Except Fault VMState :=
  match readReg s.registers target_reg with
  | .error f => .error f
  | .ok val_b =>
    match readReg s.registers source_reg with
    | .error f => .error f
    | .ok val_c =>
      let result := if op_type = "ADD" then val_b + val_c else val_b - val_c
      match writeReg s.registers target_reg result with
      | .error f => .error f
      | .ok regs => .ok { s with registers := regs }

/-- `_execute_NEQ` (lines 78-82). -/
def execute_NEQ (s : VMState) (target_reg addr : Nat) :
    Except Fault VMState :=
  match readReg s.registers target_reg with
  | .error f => .error f
  | .ok val_reg =>
    match readMem s.data_memory addr with
    | .error f => .error f
    | .ok val_mem =>
      match writeReg s.registers target_reg (if val_reg ≠ val_mem then 1 else 0) with
      | .error f => .error f
      | .ok regs => .ok { s with registers := regs }

/-- Result of one iteration of the `while` loop of `run_cycle`: the loop
exits normally (`pc` outside the buffer, or fewer than 5 bytes left — the
`break`), continues with an updated state, or raises. -/
inductive StepResult : Type
  | halted (s : VMState) : StepResult
  | running (s : VMState) : StepResult
  | fault (f : Fault) : StepResult

/-- One iteration of `run_cycle`'s `while` loop (src/etap5/interpreter.py
lines 84-142), with the loop condition, the 5-byte fetch at the raw byte
offset `pc`, the big-endian word assembly, the opcode-table lookup, and
the per-opcode field extraction and dispatch, in source order. -/
def step (s : VMState) : StepResult :=
  if s.pc < s.instruction_memory.length then
    let instr_bytes := (s.instruction_memory.drop s.pc).take INSTRUCTION_SIZE
    if instr_bytes.length ≠ INSTRUCTION_SIZE then .halted s
    else
      let instruction := fromBytesBE instr_bytes
      let opcode := instruction &&& 0xF
      match OPCODES opcode with
      | none => .fault (.unknownOpcode opcode s.pc)
      | some op_name =>
        let next_pc := s.pc + INSTRUCTION_SIZE
        let result : Except Fault (VMState × Nat) :=
          if op_name = "NOP" then .ok (s, next_pc)
          else if op_name = "JMP" then
            .ok (s, instruction >>> 4)
          else if op_name = "JZ" then
            match readReg s.registers (instruction >>> 4 &&& 0xF) with
            | .error f => .error f
            | .ok v =>
              .ok (s, if v = 0 then instruction >>> 8 &&& 0x7FFFFFFF else next_pc)
          else if op_name = "IN" ∨ op_name = "OUT" ∨ op_name = "LDI" then
            let C_reg := instruction >>> 30 &&& 0xF
            let B_const := instruction >>> 4 &&& 0x3FFFFFF
            if op_name = "IN" then
              match execute_IN s C_reg B_const with
              | .error f => .error f
              | .ok s2 => .ok (s2, next_pc)
            else if op_name = "OUT" then
              match execute_OUT s C_reg B_const with
              | .error f => .error f
              | .ok s2 => .ok (s2, next_pc)
            else
              match execute_LDI s C_reg (B_const : Int) with
              | .error f => .error f
              | .ok s2 => .ok (s2, next_pc)
          else if op_name = "STORE" then
            match execute_STORE s (instruction >>> 4 &&& 0x7FFFFFFF)
                (instruction >>> 35 &&& 0xF) with
            | .error f => .error f
            | .ok s2 => .ok (s2, next_pc)
          else if op_name = "ADD" ∨ op_name = "SUB" then
            match execute_ALU s op_name (instruction >>> 4 &&& 0xF)
                (instruction >>> 8 &&& 0xF) with
            | .error f => .error f
            | .ok s2 => .ok (s2, next_pc)
          else if op_name = "LOAD" then
            match execute_LOAD s (instruction >>> 4 &&& 0xF)
                (instruction >>> 8 &&& 0x7FFFFFFF) with
            | .error f => .error f
            | .ok s2 => .ok (s2, next_pc)
          else
            match execute_NEQ s (instruction >>> 4 &&& 0xF)
                (instruction >>> 8 &&& 0x7FFFFFFF) with
            | .error f => .error f
            | .ok s2 => .ok (s2, next_pc)
        match result with
        | .error f => .fault f
        | .ok (s2, pc2) => .running { s2 with pc := pc2 }
  else .halted s

/-- `run_cycle` (the whole `while` loop), with fuel: `none` means the loop
was still running when the fuel ran out, `some (.ok s)` that it exited
normally, `some (.error f)` that it raised fault `f`. -/
def run_cycle : Nat → VMState → Option (Except Fault VMState)
  | 0, _ => none
  | fuel + 1, s =>
    match step s with
    | .halted s2 => some (.ok s2)
    | .fault f => some (.error f)
    | .running s2 => run_cycle fuel s2

/-- Full assembler-to-engine round trip on one record: encode to the
5-byte word and decode it back the way `run_cycle` reads it (big-endian
`int.from_bytes`, then field extraction). -/
def roundTrip (i : Instr) : Option Instr :=
  match assemble i with
  | .ok bs => decode_instruction (fromBytesBE bs)
  | .error _ => none

end Etap5

/-! ### The `etap3` execution engine

Shallow embedding of src/etap3/interpretator.py: `UVMState` with its
checked accessors (32-bit masking and the hard-wired zero register R0),
`disassamble_instruction` (little-endian words, its own opcode table),
`execute_instruction` and `run_simulator` (word-index program counter and
a `max_steps` budget). -/

namespace Etap3

/-- `MAX_REG_ADDR = 0xF` of src/etap3/interpretator.py. -/
def MAX_REG_ADDR : Nat := 0xF

/-- `INSTRUCTION_SIZE = 5` of src/etap3/interpretator.py. -/
def INSTRUCTION_SIZE : Nat := 5

/-- `DATA_MEMORY_SIZE = 4096` of src/etap3/interpretator.py. -/
def DATA_MEMORY_SIZE : Nat := 4096

/-- The runtime errors of src/etap3/interpretator.py, one per `raise`
site. -/
inductive Fault : Type
  | regAddr (addr : Nat) : Fault
  | dataAddr (addr : Nat) : Fault
  | badInstrSize (n : Nat) : Fault
  | unknownOpcode (op : Nat) : Fault
  | malformedLength : Fault
deriving DecidableEq, Repr

/-- `class UVMState` (lines 15-19): registers and data memory hold
non-negative values only (every write is masked with `0xFFFFFFFF` and no
operation of this revision subtracts), so cells are `Nat`. -/
structure UVMState where
  data_memory : Nat → Nat
  registers : Nat → Nat
  pc : Nat

/-- `UVMState.get_reg` (lines 20-23). -/
def get_reg (s : UVMState) (addr : Nat) : Except Fault Nat :=
  if addr ≤ MAX_REG_ADDR then .ok (s.registers addr) else .error (.regAddr addr)

/-- `UVMState.set_reg` (lines 24-31): masks the value to 32 bits and
discards writes to register 0 (stores 0 there instead). -/
def set_reg (s : UVMState) (addr value : Nat) : Except Fault UVMState :=
  if addr ≤ MAX_REG_ADDR then
    if addr ≠ 0 then
      .ok { s with registers := updFn s.registers addr (value &&& 0xFFFFFFFF) }
    else
      .ok { s with registers := updFn s.registers 0 0 }
  else .error (.regAddr addr)

/-- `UVMState.get_data` (lines 32-35). -/
def get_data (s : UVMState) (addr : Nat) : Except Fault Nat :=
  if addr < DATA_MEMORY_SIZE then .ok (s.data_memory addr)
  else .error (.dataAddr addr)

/-- `UVMState.set_data` (lines 37-40). -/
def set_data (s : UVMState) (addr value : Nat) : Except Fault UVMState :=
  if addr < DATA_MEMORY_SIZE then
    .ok { s with data_memory := updFn s.data_memory addr (value &&& 0xFFFFFFFF) }
  else .error (.dataAddr addr)

/-- The opcode-to-name lookup
`next((name for name, code in OPCODES.items() if code == opcode), None)`
over this revision's `OPCODES` dictionary (line 6-9), in insertion order.
The dictionary maps both `'JZ'` and `'STORE'` to `0x6`; iteration order
makes `'JZ'` win, so the `'STORE'` test below is dead code, kept for
fidelity.  `SUB`, `IN` and `OUT` are absent from this revision's table. -/
def decodeName (opcode : Nat) : Option String :=
  if opcode = 0x0 then some "NOP"
  else if opcode = 0x2 then some "NEQ"
  else if opcode = 0x3 then some "ADD"
  else if opcode = 0x5 then some "JMP"
  else if opcode = 0x6 then some "JZ"
  else if opcode = 0x6 then some "STORE"
  else if opcode = 0x9 then some "LDI"
  else if opcode = 0xC then some "LOAD"
  else none

/-- `disassamble_instruction` (lines 41-64): little-endian word, low
nibble opcode, per-opcode field extraction (same in-word layout as the
etap5 table). -/
def disassamble_instruction (instr_bytes : List Nat) : Except Fault Instr :=
  if instr_bytes.length ≠ INSTRUCTION_SIZE then
    .error (.badInstrSize instr_bytes.length)
  else
    let instr_word := fromBytesLE instr_bytes
    let opcode := instr_word &&& 0xF
    match decodeName opcode with
    | none => .error (.unknownOpcode opcode)
    | some op_name =>
      if op_name = "LDI" then
        .ok (.LDI (instr_word >>> 4 &&& 0x3FFFFFF) (instr_word >>> 30 &&& MAX_REG_ADDR))
      else if op_name = "LOAD" then
        .ok (.LOAD (instr_word >>> 4 &&& MAX_REG_ADDR) (instr_word >>> 8 &&& 0x7FFFFFFF))
      else if op_name = "NEQ" then
        .ok (.NEQ (instr_word >>> 4 &&& MAX_REG_ADDR) (instr_word >>> 8 &&& 0x7FFFFFFF))
      else if op_name = "JZ" then
        .ok (.JZ (instr_word >>> 4 &&& MAX_REG_ADDR) (instr_word >>> 8 &&& 0x7FFFFFFF))
      else if op_name = "STORE" then
        .ok (.STORE (instr_word >>> 4 &&& 0x7FFFFFFF) (instr_word >>> 35 &&& MAX_REG_ADDR))
      else if op_name = "ADD" then
        .ok (.ADD (instr_word >>> 4 &&& MAX_REG_ADDR) (instr_word >>> 8 &&& MAX_REG_ADDR))
      else if op_name = "JMP" then
        .ok (.JMP (instr_word >>> 4 &&& 0x7FFFFFFF))
      else
        .ok .NOP

/-- `execute_instruction` (lines 65-94).  `next_pc = pc + 1` (word-index
units), overridden by the jump operations.  The source's `if`/`elif`
chain has no branch for any other operation name, so for them only the
program-counter commit happens (unreachable from
`disassamble_instruction` anyway). -/
def execute_instruction (ir : Instr) (s : UVMState) : Except Fault UVMState :=
  let next_pc := s.pc + 1
  match ir with
  | .LDI b_const c_reg =>
    match set_reg s c_reg b_const with
    | .error f => .error f
    | .ok s2 => .ok { s2 with pc := next_pc }
  | .LOAD b_reg c_addr =>
    match get_data s c_addr with
    | .error f => .error f
    | .ok data =>
      match set_reg s b_reg data with
      | .error f => .error f
      | .ok s2 => .ok { s2 with pc := next_pc }
  | .STORE b_addr c_reg =>
    match get_reg s c_reg with
    | .error f => .error f
    | .ok data =>
      match set_data s b_addr data with
      | .error f => .error f
      | .ok s2 => .ok { s2 with pc := next_pc }
  | .ADD b_reg c_reg =>
    match get_reg s b_reg with
    | .error f => .error f
    | .ok val_b =>
      match get_reg s c_reg with
      | .error f => .error f
      | .ok val_c =>
        match set_reg s b_reg (val_b + val_c) with
        | .error f => .error f
        | .ok s2 => .ok { s2 with pc := next_pc }
  | .JMP b_addr => .ok { s with pc := b_addr }
  | .JZ b_reg c_addr =>
    match get_reg s b_reg with
    | .error f => .error f
    | .ok v => .ok { s with pc := if v = 0 then c_addr else next_pc }
  | .NEQ b_reg c_addr =>
    match get_reg s b_reg with
    | .error f => .error f
    | .ok val_b =>
      match get_data s c_addr with
      | .error f => .error f
      | .ok val_c =>
        match set_reg s b_reg (if val_b ≠ val_c then 1 else 0) with
        | .error f => .error f
        | .ok s2 => .ok { s2 with pc := next_pc }
  | _ => .ok { s with pc := next_pc }

/-- The `while 0 <= state.pc < total_instr_count and step < max_steps`
loop of `run_simulator` (lines 100-106).  The fuel is
`max_steps - step`, so `fuel = 0` is exactly `step >= max_steps`; the
returned number is the fuel left on exit. -/
def sim_go (total : Nat) (instr_memory : List Nat) :
    Nat → UVMState → Except Fault (UVMState × Nat)
  | 0, s => .ok (s, 0)
  | fuel + 1, s =>
    if s.pc < total then
      match disassamble_instruction
          ((instr_memory.drop (s.pc * INSTRUCTION_SIZE)).take INSTRUCTION_SIZE) with
      | .error f => .error f
      | .ok ir =>
        match execute_instruction ir s with
        | .error f => .error f
        | .ok s2 => sim_go total instr_memory fuel s2
    else .ok (s, fuel + 1)

/-- How `run_simulator` classifies its exit (lines 107-112), in source
order: the step-limit test comes first, then program completion; the
final `else` (a stop with `pc` still in range) is unreachable. -/
inductive Outcome : Type
  | stepLimit : Outcome
  | finished : Outcome
  | stopped : Outcome
deriving DecidableEq, Repr

/-- `run_simulator` (lines 95-112): rejects a byte count that is not a
multiple of the word size, then runs the loop; returns the final state,
the number of executed steps, and the exit classification. -/
def run_simulator (instr_memory : List Nat) (s : UVMState) (max_steps : Nat) :
    Except Fault (UVMState × Nat × Outcome) :=
  let total_instr_count := instr_memory.length / INSTRUCTION_SIZE
  if instr_memory.length % INSTRUCTION_SIZE ≠ 0 then .error .malformedLength
  else
    match sim_go total_instr_count instr_memory max_steps s with
    | .error f => .error f
    | .ok (s2, fuel_left) =>
      .ok (s2, max_steps - fuel_left,
        if fuel_left = 0 then .stepLimit
        else if total_instr_count ≤ s2.pc then .finished
        else .stopped)

end Etap3

/-! ### Concrete programs and states used by the claims -/

/-- `JMP 0` as one big-endian `etap5` word: bytes `00 00 00 00 05`. -/
def jmp0_be : List Nat := toBytesBE (Etap5.encode_instruction (.JMP 0))

/-- `JMP 0` as one little-endian `etap3` word: bytes `05 00 00 00 00`.
(The in-word field layout of the two revisions is identical; only the
byte order differs.) -/
def jmp0_le : List Nat := toBytesLE (Etap5.encode_instruction (.JMP 0))

/-- Fresh `etap5` machine loaded with the self-loop program `JMP 0`. -/
def vm5_jmp0 : Etap5.VMState :=
  ⟨jmp0_be, 0, fun _ => 0, fun _ => 0, [], 0, []⟩

/-- Fresh `etap3` machine state (all arrays zero-filled, `pc = 0`). -/
def vm3_init : Etap3.UVMState :=
  { data_memory := fun _ => 0, registers := fun _ => 0, pc := 0 }

/-- One-instruction program `LOAD B_reg=R1 C_addr=a` (big-endian). -/
def load_prog (a : Nat) : List Nat :=
  toBytesBE (Etap5.encode_instruction (.LOAD 1 a))

/-- One-instruction program `STORE B_addr=a C_reg=R1` (big-endian). -/
def store_prog (a : Nat) : List Nat :=
  toBytesBE (Etap5.encode_instruction (.STORE a 1))

/-- One-instruction program `ADD B_reg=R1 C_reg=R2` (big-endian). -/
def add_prog : List Nat := toBytesBE (Etap5.encode_instruction (.ADD 1 2))

/-- One-instruction program `SUB B_reg=R1 C_reg=R2` (big-endian). -/
def sub_prog : List Nat := toBytesBE (Etap5.encode_instruction (.SUB 1 2))

/-- One-instruction program `IN B_const=7 C_reg=R3` (big-endian). -/
def in_prog : List Nat := toBytesBE (Etap5.encode_instruction (.IN 7 3))

/-- The spec's scenario-B program `[LDI R1,0; JZ R1,addr=target; LDI
R1,99; NOP]`, encoded as four little-endian words for the `etap3` engine
(whose jump unit is the word index). -/
def scenB_prog (target : Nat) : List Nat :=
  toBytesLE (Etap5.encode_instruction (.LDI 0 1)) ++
    toBytesLE (Etap5.encode_instruction (.JZ 1 target)) ++
      toBytesLE (Etap5.encode_instruction (.LDI 99 1)) ++
        toBytesLE (Etap5.encode_instruction .NOP)

/-- A 6-byte buffer: one NOP word plus one trailing byte (length not a
multiple of the word size). -/
def six_bytes : List Nat := [0, 0, 0, 0, 0, 0]

/-- Fresh `etap5` machine loaded with the 6-byte buffer. -/
def vm5_six : Etap5.VMState :=
  ⟨six_bytes, 0, fun _ => 0, fun _ => 0, [], 0, []⟩

/-- An `etap5` machine about to run `ADD R1, R2` with every register
holding `2^31`. -/
def vm5_add_big : Etap5.VMState :=
  ⟨add_prog, 0, fun _ => 2 ^ 31, fun _ => 0, [], 0, []⟩

/-- The register value produced by one engine step (`0` when the step
does not continue normally). -/
def reg5_after_step (s : Etap5.VMState) (i : Nat) : Int :=
  match Etap5.step s with
  | .running s2 => s2.registers i
  | _ => 0

/-- Whether a finished `run_cycle` ended by normal loop exit (as opposed
to raising a fault or running out of fuel). -/
def run5_is_ok : Option (Except Etap5.Fault Etap5.VMState) → Bool
  | some (.ok _) => true
  | _ => false

/-- Whether one engine step raised a register-index fault. -/
def step5_is_reg_fault (s : Etap5.VMState) : Bool :=
  match Etap5.step s with
  | .fault (.regIndex _) => true
  | _ => false

/-- Register `i` of the final state of an `etap3` run (`0` on error). -/
def reg3_of (r : Except Etap3.Fault (Etap3.UVMState × Nat × Etap3.Outcome))
    (i : Nat) : Nat :=
  match r with
  | .ok (s, _, _) => s.registers i
  | .error _ => 0

/-- Number of steps executed by an `etap3` run (`0` on error). -/
def steps3_of (r : Except Etap3.Fault (Etap3.UVMState × Nat × Etap3.Outcome)) :
    Nat :=
  match r with
  | .ok (_, n, _) => n
  | .error _ => 0

/-- Exit classification of an `etap3` run (`none` on error). -/
def outcome3_of (r : Except Etap3.Fault (Etap3.UVMState × Nat × Etap3.Outcome)) :
    Option Etap3.Outcome :=
  match r with
  | .ok (_, _, o) => some o
  | .error _ => none


/-- The fault (if any) a finished `run_cycle` raised. -/
def run5_fault : Option (Except Etap5.Fault Etap5.VMState) → Option Etap5.Fault
  | some (.error f) => some f
  | _ => none

/-- Register `i` of the final state of a normally-halted `run_cycle`
(`0` otherwise). -/
def run5_reg (r : Option (Except Etap5.Fault Etap5.VMState)) (i : Nat) : Int :=
  match r with
  | some (.ok s) => s.registers i
  | _ => 0

/-- Data-memory cell `a` of the final state of a normally-halted
`run_cycle` (`0` otherwise). -/
def run5_mem (r : Option (Except Etap5.Fault Etap5.VMState)) (a : Nat) : Int :=
  match r with
  | some (.ok s) => s.data_memory a
  | _ => 0

/-- An `etap5` machine with zeroed registers, memory cell `MEMORY_SIZE - 1`
holding 42 and every other cell 0, loaded with program `p`. -/
def vm5_lastcell (p : List Nat) : Etap5.VMState :=
  ⟨p, 0, fun _ => 0, fun a => if a = Etap5.MEMORY_SIZE - 1 then 42 else 0, [], 0, []⟩

/-- An `etap5` machine with every register holding 7, loaded with
program `p`. -/
def vm5_regs7 (p : List Nat) : Etap5.VMState :=
  ⟨p, 0, fun _ => 7, fun _ => 0, [], 0, []⟩


/-! ## Theorems

First the byte-packing and bit-field lemmas, then the per-opcode
round-trip lemmas, then the theorems settling the claims. -/

theorem fromBytesBE_toBytesBE {w : Nat} (h : w < 2 ^ 40) :
    fromBytesBE (toBytesBE w) = w := by
  simp only [toBytesBE, fromBytesBE, List.foldl]
  omega

theorem fromBytesLE_toBytesLE {w : Nat} (h : w < 2 ^ 40) :
    fromBytesLE (toBytesLE w) = w := by
  simp only [toBytesLE, fromBytesLE, List.foldr]
  omega

theorem and_mask15 (x : Nat) : x &&& 0xF = x % 16 := by
  have h := Nat.and_pow_two_sub_one_eq_mod x 4
  norm_num at h
  simpa using h

theorem and_mask26 (x : Nat) : x &&& 0x3FFFFFF = x % 2 ^ 26 := by
  have h := Nat.and_pow_two_sub_one_eq_mod x 26
  norm_num at h
  simpa using h

theorem and_mask31 (x : Nat) : x &&& 0x7FFFFFFF = x % 2 ^ 31 := by
  have h := Nat.and_pow_two_sub_one_eq_mod x 31
  norm_num at h
  simpa using h

theorem and_mask32 (x : Nat) : x &&& 0xFFFFFFFF = x % 2 ^ 32 := by
  have h := Nat.and_pow_two_sub_one_eq_mod x 32
  norm_num at h
  simpa using h

theorem shiftRight_div (x k : Nat) : x >>> k = x / 2 ^ k :=
  Nat.shiftRight_eq_div_pow x k

/-- Disjoint bitwise-or is addition: if `a` fits below bit `k`, or-ing a
value shifted up by `k` bits on top of it is plain addition.  This is the
algebraic content of the encoder's `opcode | (B << 4) | (C << s)`. -/
theorem lor_shiftLeft_eq_add {a : Nat} (b k : Nat) (h : a < 2 ^ k) :
    a ||| b <<< k = 2 ^ k * b + a := by
  apply Nat.eq_of_testBit_eq
  intro i
  rw [Nat.testBit_lor, Nat.testBit_shiftLeft,
    Nat.testBit_mul_pow_two_add b h i]
  by_cases hik : i < k
  · have hk : ¬ k ≤ i := by omega
    simp [hik, hk]
  · have hk : k ≤ i := by omega
    have ha : a.testBit i = false :=
      Nat.testBit_lt_two_pow (lt_of_lt_of_le h (Nat.pow_le_pow_right (by norm_num) hk))
    simp [hik, hk, ha]

namespace Etap5

theorem rt_NOP : roundTrip .NOP = some .NOP := by decide

theorem rt_NEQ (b c : Nat) (hb : b < 16) (hc : c < 2 ^ 31) :
    roundTrip (.NEQ b c) = some (.NEQ b c) := by
  have hw : encode_instruction (.NEQ b c) = 2 ^ 8 * c + (2 ^ 4 * b + 2) := by
    show (0x2 : Nat) ||| b <<< 4 ||| c <<< 8 = _
    rw [lor_shiftLeft_eq_add b 4 (by norm_num)]
    rw [lor_shiftLeft_eq_add c 8 (by omega)]
  have hacc : translate_accepts (.NEQ b c) = true := by
    simp only [translate_accepts, decide_eq_true_eq]; omega
  have h1 : assemble (.NEQ b c) =
      .ok (toBytesBE (2 ^ 8 * c + (2 ^ 4 * b + 2))) := by
    unfold assemble to_bytes_5_be
    rw [hacc, hw]
    simp only [if_true]
    rw [if_pos (by omega : 2 ^ 8 * c + (2 ^ 4 * b + 2) < 2 ^ 40)]
  have hop : (2 ^ 8 * c + (2 ^ 4 * b + 2)) % 16 = 2 := by omega
  unfold roundTrip
  rw [h1]
  show decode_instruction
      (fromBytesBE (toBytesBE (2 ^ 8 * c + (2 ^ 4 * b + 2)))) = some (.NEQ b c)
  rw [fromBytesBE_toBytesBE (by omega)]
  simp only [decode_instruction, OPCODES, and_mask15, and_mask26,
    and_mask31, shiftRight_div, hop]
  simp
  omega

theorem rt_ADD (b c : Nat) (hb : b < 16) (hc : c < 16) :
    roundTrip (.ADD b c) = some (.ADD b c) := by
  have hw : encode_instruction (.ADD b c) = 2 ^ 8 * c + (2 ^ 4 * b + 3) := by
    show (0x3 : Nat) ||| b <<< 4 ||| c <<< 8 = _
    rw [lor_shiftLeft_eq_add b 4 (by norm_num)]
    rw [lor_shiftLeft_eq_add c 8 (by omega)]
  have hacc : translate_accepts (.ADD b c) = true := by
    simp only [translate_accepts, Bool.and_eq_true, decide_eq_true_eq]; omega
  have h1 : assemble (.ADD b c) =
      .ok (toBytesBE (2 ^ 8 * c + (2 ^ 4 * b + 3))) := by
    unfold assemble to_bytes_5_be
    rw [hacc, hw]
    simp only [if_true]
    rw [if_pos (by omega : 2 ^ 8 * c + (2 ^ 4 * b + 3) < 2 ^ 40)]
  have hop : (2 ^ 8 * c + (2 ^ 4 * b + 3)) % 16 = 3 := by omega
  unfold roundTrip
  rw [h1]
  show decode_instruction
      (fromBytesBE (toBytesBE (2 ^ 8 * c + (2 ^ 4 * b + 3)))) = some (.ADD b c)
  rw [fromBytesBE_toBytesBE (by omega)]
  simp only [decode_instruction, OPCODES, and_mask15, and_mask26,
    and_mask31, shiftRight_div, hop]
  simp
  omega

theorem rt_SUB (b c : Nat) (hb : b < 16) (hc : c < 16) :
    roundTrip (.SUB b c) = some (.SUB b c) := by
  have hw : encode_instruction (.SUB b c) = 2 ^ 8 * c + (2 ^ 4 * b + 4) := by
    show (0x4 : Nat) ||| b <<< 4 ||| c <<< 8 = _
    rw [lor_shiftLeft_eq_add b 4 (by norm_num)]
    rw [lor_shiftLeft_eq_add c 8 (by omega)]
  have hacc : translate_accepts (.SUB b c) = true := by
    simp only [translate_accepts, Bool.and_eq_true, decide_eq_true_eq]; omega
  have h1 : assemble (.SUB b c) =
      .ok (toBytesBE (2 ^ 8 * c + (2 ^ 4 * b + 4))) := by
    unfold assemble to_bytes_5_be
    rw [hacc, hw]
    simp only [if_true]
    rw [if_pos (by omega : 2 ^ 8 * c + (2 ^ 4 * b + 4) < 2 ^ 40)]
  have hop : (2 ^ 8 * c + (2 ^ 4 * b + 4)) % 16 = 4 := by omega
  unfold roundTrip
  rw [h1]
  show decode_instruction
      (fromBytesBE (toBytesBE (2 ^ 8 * c + (2 ^ 4 * b + 4)))) = some (.SUB b c)
  rw [fromBytesBE_toBytesBE (by omega)]
  simp only [decode_instruction, OPCODES, and_mask15, and_mask26,
    and_mask31, shiftRight_div, hop]
  simp
  omega

theorem rt_JMP (b : Nat) (hb : b < 2 ^ 31) :
    roundTrip (.JMP b) = some (.JMP b) := by
  have hw : encode_instruction (.JMP b) = 2 ^ 4 * b + 5 := by
    show (0x5 : Nat) ||| b <<< 4 = _
    rw [lor_shiftLeft_eq_add b 4 (by norm_num)]
  have h1 : assemble (.JMP b) = .ok (toBytesBE (2 ^ 4 * b + 5)) := by
    unfold assemble to_bytes_5_be
    rw [show translate_accepts (.JMP b) = true from rfl, hw]
    simp only [if_true]
    rw [if_pos (by omega : 2 ^ 4 * b + 5 < 2 ^ 40)]
  have hop : (2 ^ 4 * b + 5) % 16 = 5 := by omega
  unfold roundTrip
  rw [h1]
  show decode_instruction (fromBytesBE (toBytesBE (2 ^ 4 * b + 5))) = some (.JMP b)
  rw [fromBytesBE_toBytesBE (by omega)]
  simp only [decode_instruction, OPCODES, and_mask15, and_mask26,
    and_mask31, shiftRight_div, hop]
  simp
  omega

theorem rt_JZ (b c : Nat) (hb : b < 16) (hc : c < 2 ^ 31) :
    roundTrip (.JZ b c) = some (.JZ b c) := by
  have hw : encode_instruction (.JZ b c) = 2 ^ 8 * c + (2 ^ 4 * b + 6) := by
    show (0x6 : Nat) ||| b <<< 4 ||| c <<< 8 = _
    rw [lor_shiftLeft_eq_add b 4 (by norm_num)]
    rw [lor_shiftLeft_eq_add c 8 (by omega)]
  have hacc : translate_accepts (.JZ b c) = true := by
    simp only [translate_accepts, decide_eq_true_eq]; omega
  have h1 : assemble (.JZ b c) =
      .ok (toBytesBE (2 ^ 8 * c + (2 ^ 4 * b + 6))) := by
    unfold assemble to_bytes_5_be
    rw [hacc, hw]
    simp only [if_true]
    rw [if_pos (by omega : 2 ^ 8 * c + (2 ^ 4 * b + 6) < 2 ^ 40)]
  have hop : (2 ^ 8 * c + (2 ^ 4 * b + 6)) % 16 = 6 := by omega
  unfold roundTrip
  rw [h1]
  show decode_instruction
      (fromBytesBE (toBytesBE (2 ^ 8 * c + (2 ^ 4 * b + 6)))) = some (.JZ b c)
  rw [fromBytesBE_toBytesBE (by omega)]
  simp only [decode_instruction, OPCODES, and_mask15, and_mask26,
    and_mask31, shiftRight_div, hop]
  simp
  omega

theorem rt_IN (b c : Nat) (hb : b < 2 ^ 26) (hc : c < 16) :
    roundTrip (.IN b c) = some (.IN b c) := by
  have hw : encode_instruction (.IN b c) = 2 ^ 30 * c + (2 ^ 4 * b + 7) := by
    show (0x7 : Nat) ||| b <<< 4 ||| c <<< 30 = _
    rw [lor_shiftLeft_eq_add b 4 (by norm_num)]
    rw [lor_shiftLeft_eq_add c 30 (by omega)]
  have hacc : translate_accepts (.IN b c) = true := by
    simp only [translate_accepts, MAX_CONST_26, Bool.and_eq_true, decide_eq_true_eq]
    omega
  have h1 : assemble (.IN b c) =
      .ok (toBytesBE (2 ^ 30 * c + (2 ^ 4 * b + 7))) := by
    unfold assemble to_bytes_5_be
    rw [hacc, hw]
    simp only [if_true]
    rw [if_pos (by omega : 2 ^ 30 * c + (2 ^ 4 * b + 7) < 2 ^ 40)]
  have hop : (2 ^ 30 * c + (2 ^ 4 * b + 7)) % 16 = 7 := by omega
  unfold roundTrip
  rw [h1]
  show decode_instruction
      (fromBytesBE (toBytesBE (2 ^ 30 * c + (2 ^ 4 * b + 7)))) = some (.IN b c)
  rw [fromBytesBE_toBytesBE (by omega)]
  simp only [decode_instruction, OPCODES, and_mask15, and_mask26,
    and_mask31, shiftRight_div, hop]
  simp
  omega

theorem rt_OUT (b c : Nat) (hb : b < 2 ^ 26) (hc : c < 16) :
    roundTrip (.OUT b c) = some (.OUT b c) := by
  have hw : encode_instruction (.OUT b c) = 2 ^ 30 * c + (2 ^ 4 * b + 8) := by
    show (0x8 : Nat) ||| b <<< 4 ||| c <<< 30 = _
    rw [lor_shiftLeft_eq_add b 4 (by norm_num)]
    rw [lor_shiftLeft_eq_add c 30 (by omega)]
  have hacc : translate_accepts (.OUT b c) = true := by
    simp only [translate_accepts, MAX_CONST_26, Bool.and_eq_true, decide_eq_true_eq]
    omega
  have h1 : assemble (.OUT b c) =
      .ok (toBytesBE (2 ^ 30 * c + (2 ^ 4 * b + 8))) := by
    unfold assemble to_bytes_5_be
    rw [hacc, hw]
    simp only [if_true]
    rw [if_pos (by omega : 2 ^ 30 * c + (2 ^ 4 * b + 8) < 2 ^ 40)]
  have hop : (2 ^ 30 * c + (2 ^ 4 * b + 8)) % 16 = 8 := by omega
  unfold roundTrip
  rw [h1]
  show decode_instruction
      (fromBytesBE (toBytesBE (2 ^ 30 * c + (2 ^ 4 * b + 8)))) = some (.OUT b c)
  rw [fromBytesBE_toBytesBE (by omega)]
  simp only [decode_instruction, OPCODES, and_mask15, and_mask26,
    and_mask31, shiftRight_div, hop]
  simp
  omega

theorem rt_LDI (b c : Nat) (hb : b < 2 ^ 26) (hc : c < 16) :
    roundTrip (.LDI b c) = some (.LDI b c) := by
  have hw : encode_instruction (.LDI b c) = 2 ^ 30 * c + (2 ^ 4 * b + 9) := by
    show (0x9 : Nat) ||| b <<< 4 ||| c <<< 30 = _
    rw [lor_shiftLeft_eq_add b 4 (by norm_num)]
    rw [lor_shiftLeft_eq_add c 30 (by omega)]
  have hacc : translate_accepts (.LDI b c) = true := by
    simp only [translate_accepts, decide_eq_true_eq]; omega
  have h1 : assemble (.LDI b c) =
      .ok (toBytesBE (2 ^ 30 * c + (2 ^ 4 * b + 9))) := by
    unfold assemble to_bytes_5_be
    rw [hacc, hw]
    simp only [if_true]
    rw [if_pos (by omega : 2 ^ 30 * c + (2 ^ 4 * b + 9) < 2 ^ 40)]
  have hop : (2 ^ 30 * c + (2 ^ 4 * b + 9)) % 16 = 9 := by omega
  unfold roundTrip
  rw [h1]
  show decode_instruction
      (fromBytesBE (toBytesBE (2 ^ 30 * c + (2 ^ 4 * b + 9)))) = some (.LDI b c)
  rw [fromBytesBE_toBytesBE (by omega)]
  simp only [decode_instruction, OPCODES, and_mask15, and_mask26,
    and_mask31, shiftRight_div, hop]
  simp
  omega

theorem rt_STORE (b c : Nat) (hb : b < 2 ^ 31) (hc : c < 16) :
    roundTrip (.STORE b c) = some (.STORE b c) := by
  have hw : encode_instruction (.STORE b c) = 2 ^ 35 * c + (2 ^ 4 * b + 10) := by
    show (0xA : Nat) ||| b <<< 4 ||| c <<< 35 = _
    rw [lor_shiftLeft_eq_add b 4 (by norm_num)]
    rw [lor_shiftLeft_eq_add c 35 (by omega)]
  have hacc : translate_accepts (.STORE b c) = true := by
    simp only [translate_accepts, decide_eq_true_eq]; omega
  have h1 : assemble (.STORE b c) =
      .ok (toBytesBE (2 ^ 35 * c + (2 ^ 4 * b + 10))) := by
    unfold assemble to_bytes_5_be
    rw [hacc, hw]
    simp only [if_true]
    rw [if_pos (by omega : 2 ^ 35 * c + (2 ^ 4 * b + 10) < 2 ^ 40)]
  have hop : (2 ^ 35 * c + (2 ^ 4 * b + 10)) % 16 = 10 := by omega
  unfold roundTrip
  rw [h1]
  show decode_instruction
      (fromBytesBE (toBytesBE (2 ^ 35 * c + (2 ^ 4 * b + 10)))) = some (.STORE b c)
  rw [fromBytesBE_toBytesBE (by omega)]
  simp only [decode_instruction, OPCODES, and_mask15, and_mask26,
    and_mask31, shiftRight_div, hop]
  simp
  omega

theorem rt_LOAD (b c : Nat) (hb : b < 16) (hc : c < 2 ^ 31) :
    roundTrip (.LOAD b c) = some (.LOAD b c) := by
  have hw : encode_instruction (.LOAD b c) = 2 ^ 8 * c + (2 ^ 4 * b + 12) := by
    show (0xC : Nat) ||| b <<< 4 ||| c <<< 8 = _
    rw [lor_shiftLeft_eq_add b 4 (by norm_num)]
    rw [lor_shiftLeft_eq_add c 8 (by omega)]
  have hacc : translate_accepts (.LOAD b c) = true := by
    simp only [translate_accepts, decide_eq_true_eq]; omega
  have h1 : assemble (.LOAD b c) =
      .ok (toBytesBE (2 ^ 8 * c + (2 ^ 4 * b + 12))) := by
    unfold assemble to_bytes_5_be
    rw [hacc, hw]
    simp only [if_true]
    rw [if_pos (by omega : 2 ^ 8 * c + (2 ^ 4 * b + 12) < 2 ^ 40)]
  have hop : (2 ^ 8 * c + (2 ^ 4 * b + 12)) % 16 = 12 := by omega
  unfold roundTrip
  rw [h1]
  show decode_instruction
      (fromBytesBE (toBytesBE (2 ^ 8 * c + (2 ^ 4 * b + 12)))) = some (.LOAD b c)
  rw [fromBytesBE_toBytesBE (by omega)]
  simp only [decode_instruction, OPCODES, and_mask15, and_mask26,
    and_mask31, shiftRight_div, hop]
  simp
  omega

end Etap5

/-- C1: for every instruction record whose operation is in the opcode
table and whose operand values lie within the legal field ranges of the
Field Layout Table, encoding it with the src/etap5 assembler to a 5-byte
big-endian word and decoding that word the way the execution engine's
`run_cycle` does (low nibble as opcode, per-opcode shifts and masks for
the B and C fields) recovers exactly the original operation and operand
values. -/
theorem claim_C1_encode_decode_roundtrip (i : Instr) (h : Etap5.legal i = true) :
    Etap5.roundTrip i = some i := by
  cases i with
  | NOP => exact Etap5.rt_NOP
  | NEQ b c =>
    simp only [Etap5.legal, Bool.and_eq_true, decide_eq_true_eq] at h
    exact Etap5.rt_NEQ b c h.1 h.2
  | ADD b c =>
    simp only [Etap5.legal, Bool.and_eq_true, decide_eq_true_eq] at h
    exact Etap5.rt_ADD b c h.1 h.2
  | SUB b c =>
    simp only [Etap5.legal, Bool.and_eq_true, decide_eq_true_eq] at h
    exact Etap5.rt_SUB b c h.1 h.2
  | JMP b =>
    simp only [Etap5.legal, decide_eq_true_eq] at h
    exact Etap5.rt_JMP b h
  | JZ b c =>
    simp only [Etap5.legal, Bool.and_eq_true, decide_eq_true_eq] at h
    exact Etap5.rt_JZ b c h.1 h.2
  | IN b c =>
    simp only [Etap5.legal, Bool.and_eq_true, decide_eq_true_eq] at h
    exact Etap5.rt_IN b c h.1 h.2
  | OUT b c =>
    simp only [Etap5.legal, Bool.and_eq_true, decide_eq_true_eq] at h
    exact Etap5.rt_OUT b c h.1 h.2
  | LDI b c =>
    simp only [Etap5.legal, Bool.and_eq_true, decide_eq_true_eq] at h
    exact Etap5.rt_LDI b c h.1 h.2
  | STORE b c =>
    simp only [Etap5.legal, Bool.and_eq_true, decide_eq_true_eq] at h
    exact Etap5.rt_STORE b c h.1 h.2
  | LOAD b c =>
    simp only [Etap5.legal, Bool.and_eq_true, decide_eq_true_eq] at h
    exact Etap5.rt_LOAD b c h.1 h.2

/-- Witness for C1: the concrete record `LDI B_const=123 C_reg=5` is legal
and survives the encode/decode round trip unchanged. -/
theorem claim_C1_encode_decode_roundtrip_witness :
    Etap5.legal (.LDI 123 5) = true ∧
      Etap5.roundTrip (.LDI 123 5) = some (.LDI 123 5) :=
  ⟨by decide, claim_C1_encode_decode_roundtrip (.LDI 123 5) (by decide)⟩

/-- C2 (code bug): the record `LDI value=2^26 target=R1` carries a constant
one past the 26-bit field maximum, yet the src/etap5 assembler accepts it:
`translate_instruction` performs no range check on `LDI`'s `value`, and
`encode_instruction` emits a 5-byte word in which the out-of-range bit has
silently collided with the C field, so the word decodes to `LDI 0 R1` —
the same bytes as encoding `LDI value=0 target=R1`.  The specification
requires a `FieldOutOfRange` failure and no output word here. -/
theorem claim_C2_ldi_out_of_range_is_encoded :
    Etap5.translate_accepts (.LDI (2 ^ 26) 1) = true ∧
      Etap5.assemble (.LDI (2 ^ 26) 1) = .ok [0x00, 0x40, 0x00, 0x00, 0x09] ∧
      Etap5.assemble (.LDI 0 1) = .ok [0x00, 0x40, 0x00, 0x00, 0x09] ∧
      Etap5.decode_instruction (fromBytesBE [0x00, 0x40, 0x00, 0x00, 0x09]) =
        some (.LDI 0 1) ∧
      (2 ^ 26 : Nat) ≠ 0 :=
  ⟨rfl, rfl, rfl, rfl, by decide⟩

/-- C3 (code bug): the specification makes the step budget mandatory
("the engine owns a mandatory step counter and a configured maximum") and
scenario D demands that `JMP 0` halt with StepLimitReached after exactly
N steps.  The `etap3` engine satisfies this: on the self-loop it executes
exactly N steps and classifies the exit as the step limit, never
faulting.  The final `etap5` engine's `run_cycle` has no step counter at
all: on the same self-loop its loop never terminates (it is still
running after any amount of fuel). -/
theorem claim_C3_step_budget :
    (∀ fuel, Etap5.run_cycle fuel vm5_jmp0 = none) ∧
    (∀ N, Etap3.run_simulator jmp0_le vm3_init N = .ok (vm3_init, N, .stepLimit)) := by
  constructor
  · intro fuel
    induction fuel with
    | zero => rfl
    | succ n ih =>
      have h1 : Etap5.run_cycle (n + 1) vm5_jmp0 = Etap5.run_cycle n vm5_jmp0 := rfl
      rw [h1]; exact ih
  · intro N
    have go : ∀ fuel, Etap3.sim_go 1 jmp0_le fuel vm3_init = .ok (vm3_init, 0) := by
      intro fuel
      induction fuel with
      | zero => rfl
      | succ n ih =>
        have h1 : Etap3.sim_go 1 jmp0_le (n + 1) vm3_init =
            Etap3.sim_go 1 jmp0_le n vm3_init := rfl
        rw [h1]; exact ih
    have hrun : Etap3.run_simulator jmp0_le vm3_init N =
        (match Etap3.sim_go 1 jmp0_le N vm3_init with
          | .error f => .error f
          | .ok (s2, fuel_left) =>
            .ok (s2, N - fuel_left,
              if fuel_left = 0 then Etap3.Outcome.stepLimit
              else if 1 ≤ s2.pc then Etap3.Outcome.finished
              else Etap3.Outcome.stopped)) := by
      with_unfolding_all rfl
    rw [hrun, go N]
    simp

/-- C4: in the `etap5` engine, a `LOAD` or `STORE` whose effective
address equals `MEMORY_SIZE` raises the memory-index fault — for every
machine state and every (in-range) register operand — while the same
operation at `MEMORY_SIZE - 1` succeeds, reading or writing the last
cell.  At the engine level: a one-instruction `LOAD R1, MEMORY_SIZE`
program halts with the memory fault, while `LOAD R1, MEMORY_SIZE - 1`
reads the last cell (42) into R1 and the run halts normally; likewise
`STORE` faults at `MEMORY_SIZE` and at `MEMORY_SIZE - 1` writes R1 (7)
into the last cell. -/
theorem claim_C4_memory_bounds :
    (∀ (s : Etap5.VMState) (target_reg : Nat), target_reg < 16 →
      Etap5.execute_LOAD s target_reg Etap5.MEMORY_SIZE =
        .error (.memIndex Etap5.MEMORY_SIZE) ∧
      Etap5.execute_LOAD s target_reg (Etap5.MEMORY_SIZE - 1) =
        .ok { s with registers :=
          (updFn s.registers target_reg (s.data_memory (Etap5.MEMORY_SIZE - 1))) }) ∧
    (∀ (s : Etap5.VMState) (source_reg : Nat), source_reg < 16 →
      Etap5.execute_STORE s Etap5.MEMORY_SIZE source_reg =
        .error (.memIndex Etap5.MEMORY_SIZE) ∧
      Etap5.execute_STORE s (Etap5.MEMORY_SIZE - 1) source_reg =
        .ok { s with data_memory :=
          (updFn s.data_memory (Etap5.MEMORY_SIZE - 1) (s.registers source_reg)) }) ∧
    run5_fault (Etap5.run_cycle 2 (vm5_lastcell (load_prog Etap5.MEMORY_SIZE))) =
      some (.memIndex Etap5.MEMORY_SIZE) ∧
    run5_reg (Etap5.run_cycle 2 (vm5_lastcell (load_prog (Etap5.MEMORY_SIZE - 1)))) 1
      = 42 ∧
    run5_fault (Etap5.run_cycle 2 (vm5_regs7 (store_prog Etap5.MEMORY_SIZE))) =
      some (.memIndex Etap5.MEMORY_SIZE) ∧
    run5_mem (Etap5.run_cycle 2 (vm5_regs7 (store_prog (Etap5.MEMORY_SIZE - 1))))
      (Etap5.MEMORY_SIZE - 1) = 7 := by
  have hms : 0 < Etap5.MEMORY_SIZE := by norm_num [Etap5.MEMORY_SIZE]
  refine ⟨?_, ?_, by decide, by decide, by decide, by decide⟩
  · intro s target_reg ht
    constructor
    · unfold Etap5.execute_LOAD Etap5.readMem
      simp only [if_neg (by omega : ¬ Etap5.MEMORY_SIZE < Etap5.MEMORY_SIZE)]
    · unfold Etap5.execute_LOAD Etap5.readMem Etap5.writeReg
      simp only [if_pos (by omega : Etap5.MEMORY_SIZE - 1 < Etap5.MEMORY_SIZE),
        if_pos ht]
  · intro s source_reg hs
    constructor
    · unfold Etap5.execute_STORE Etap5.readReg Etap5.writeMem
      simp only [if_pos hs,
        if_neg (by omega : ¬ Etap5.MEMORY_SIZE < Etap5.MEMORY_SIZE)]
    · unfold Etap5.execute_STORE Etap5.readReg Etap5.writeMem
      simp only [if_pos hs,
        if_pos (by omega : Etap5.MEMORY_SIZE - 1 < Etap5.MEMORY_SIZE)]

/-- Witness for C4: from a fresh state, `LOAD R1` at the memory size
faults and at the last cell succeeds. -/
theorem claim_C4_memory_bounds_witness :
    Etap5.execute_LOAD ⟨[], 0, fun _ => 0, fun _ => 0, [], 0, []⟩ 1
        Etap5.MEMORY_SIZE = .error (.memIndex Etap5.MEMORY_SIZE) ∧
    Etap5.execute_LOAD ⟨[], 0, fun _ => 0, fun _ => 0, [], 0, []⟩ 1
        (Etap5.MEMORY_SIZE - 1) =
      .ok ⟨[], 0, updFn (fun _ => 0) 1 0, fun _ => 0, [], 0, []⟩ :=
  (claim_C4_memory_bounds.1 ⟨[], 0, fun _ => 0, fun _ => 0, [], 0, []⟩ 1
    (by decide))

/-- C5 counterexample: with every register holding `2^31`, executing
`ADD R1, R2` in the `etap5` engine stores `2^32` into R1 — not the 32-bit
wrapped sum, which would be `0` — so a register does not always hold a
32-bit value. -/
theorem claim_C5_wrap_counterexample :
    reg5_after_step vm5_add_big 1 = 2 ^ 32 ∧
      ((2 : Int) ^ 31 + 2 ^ 31) % 2 ^ 32 = 0 ∧ (2 : Int) ^ 32 ≠ 0 :=
  ⟨by decide, by decide, by decide⟩

/-- C5 as amended: the final (`etap5`) engine's `_execute_ALU` stores the
exact integer sum / difference of `reg[B]` and `reg[C]` into `reg[B]`
with no 32-bit wrap, for every machine state (overflow is still never an
error, but registers may leave the 32-bit range); the `etap3` revision's
`set_reg` is the one that masks the written value to 32 bits.  On the
engine: one step of `ADD R1, R2` from the all-`2^31` register file
leaves `2^32` in R1. -/
theorem claim_C5_alu_exact :
    (∀ s : Etap5.VMState,
      Etap5.execute_ALU s "ADD" 1 2 =
        .ok { s with registers :=
          (updFn s.registers 1 (s.registers 1 + s.registers 2)) } ∧
      Etap5.execute_ALU s "SUB" 1 2 =
        .ok { s with registers :=
          (updFn s.registers 1 (s.registers 1 - s.registers 2)) }) ∧
    (∀ s3 : Etap3.UVMState,
      Etap3.execute_instruction (.ADD 1 2) s3 =
        .ok { s3 with
          registers :=
            (updFn s3.registers 1 ((s3.registers 1 + s3.registers 2) &&& 0xFFFFFFFF)),
          pc := s3.pc + 1 }) ∧
    reg5_after_step vm5_add_big 1 = 2 ^ 32 := by
  refine ⟨fun s => ⟨rfl, rfl⟩, fun s3 => rfl, by decide⟩

/-- C6 counterexample: the final (`etap5`) engine, given the 6-byte
buffer (one NOP word plus a trailing byte), silently drops the remainder
and exits its loop normally — no malformed-program (or any other) error
is reported. -/
theorem claim_C6_trailing_bytes_ignored :
    six_bytes.length % 5 ≠ 0 ∧ run5_is_ok (Etap5.run_cycle 2 vm5_six) = true :=
  ⟨by decide, by decide⟩

/-- C6 as amended: the `etap3` engine is the revision that enforces the
rule — for every byte buffer whose length is not a multiple of the 5-byte
word size, `run_simulator` reports the malformed-length error (for any
initial state and any step budget); the final `etap5` engine instead
silently stops at the truncated tail. -/
theorem claim_C6_malformed_length :
    ∀ (instr_memory : List Nat) (s : Etap3.UVMState) (max_steps : Nat),
      instr_memory.length % 5 ≠ 0 →
      Etap3.run_simulator instr_memory s max_steps = .error .malformedLength := by
  intro instr_memory s max_steps h
  simp only [Etap3.run_simulator, Etap3.INSTRUCTION_SIZE]
  rw [if_pos h]

/-- Witness for C6: the 6-byte buffer is rejected by the `etap3` engine
with the malformed-length error. -/
theorem claim_C6_malformed_length_witness :
    six_bytes.length % 5 ≠ 0 ∧
      Etap3.run_simulator six_bytes vm3_init 1000 = .error .malformedLength :=
  ⟨by decide, claim_C6_malformed_length six_bytes vm3_init 1000 (by decide)⟩

/-- C7: the `etap5` engine is deterministic — two runs started from
machine states with identical program bytes, program counter, registers,
data memory, input queue, input cursor and output log produce identical
results (final state, fault, or fuel exhaustion), for every step bound. -/
theorem claim_C7_determinism :
    ∀ (a b : Etap5.VMState) (fuel : Nat),
      a.instruction_memory = b.instruction_memory → a.pc = b.pc →
      (∀ i, a.registers i = b.registers i) →
      (∀ x, a.data_memory x = b.data_memory x) →
      a.input_data = b.input_data → a.input_ptr = b.input_ptr →
      a.output_log = b.output_log →
      Etap5.run_cycle fuel a = Etap5.run_cycle fuel b := by
  intro a b fuel h1 h2 h3 h4 h5 h6 h7
  have hab : a = b := by
    cases a; cases b
    subst h1; subst h2; subst h5; subst h6; subst h7
    have hr := funext h3
    have hm := funext h4
    subst hr; subst hm
    rfl
  rw [hab]

/-- Witness for C7: two identical fresh machines running the self-loop
program agree. -/
theorem claim_C7_determinism_witness :
    Etap5.run_cycle 3 vm5_jmp0 = Etap5.run_cycle 3 vm5_jmp0 :=
  claim_C7_determinism vm5_jmp0 vm5_jmp0 3 rfl rfl (fun _ => rfl)
    (fun _ => rfl) rfl rfl rfl

/-- C8 counterexample: in the `etap3` engine — the revision whose jump
unit is the word index, as the claim presupposes — running the spec's
scenario-B program `[LDI R1,0; JZ R1,addr=2; LDI R1,99; NOP]` ends with
R1 = 99, not 0: word index 2 is the `LDI R1,99` instruction itself, so
the branch lands on it instead of skipping it. -/
theorem claim_C8_scenB_addr2_yields_99 :
    reg3_of (Etap3.run_simulator (scenB_prog 2) vm3_init 1000) 1 = 99 ∧
      (99 : Nat) ≠ 0 :=
  ⟨by decide, by decide⟩

/-- C8 as amended: in the `etap3` engine jump targets are word indices
consistent with the program counter, and the branch target that skips the
`LDI R1,99` is word index 3: with `addr=3` the run executes only 3 of the
4 instructions (the `LDI R1,99` is skipped), halts normally, and leaves
R1 = 0, whereas with the spec's `addr=2` it executes all 4, landing on
the `LDI R1,99`, and leaves R1 = 99. -/
theorem claim_C8_jump_word_index :
    reg3_of (Etap3.run_simulator (scenB_prog 3) vm3_init 1000) 1 = 0 ∧
      steps3_of (Etap3.run_simulator (scenB_prog 3) vm3_init 1000) = 3 ∧
      outcome3_of (Etap3.run_simulator (scenB_prog 3) vm3_init 1000) =
        some .finished ∧
      reg3_of (Etap3.run_simulator (scenB_prog 2) vm3_init 1000) 1 = 99 ∧
      steps3_of (Etap3.run_simulator (scenB_prog 2) vm3_init 1000) = 4 :=
  ⟨by decide, by decide, by decide, by decide, by decide⟩

/-- C9: `_execute_IN` of the `etap5` engine, run with the input queue
exhausted (cursor at or past the end), stores the EOF sentinel 0 into the
target register without faulting and leaves the input queue, its cursor
and everything else unchanged; run before exhaustion it stores the
element at the cursor and advances the cursor by one.  On the engine: a
one-instruction `IN` program from the empty queue leaves 0 in R3, and
from queue `[42]` leaves 42. -/
theorem claim_C9_eof_sentinel :
    (∀ (s : Etap5.VMState) (target_reg io_code : Nat), target_reg < 16 →
      (s.input_data.length ≤ s.input_ptr →
        Etap5.execute_IN s target_reg io_code =
          .ok { s with registers := (updFn s.registers target_reg 0) }) ∧
      (s.input_ptr < s.input_data.length →
        Etap5.execute_IN s target_reg io_code =
          .ok { s with
            registers :=
              (updFn s.registers target_reg (s.input_data.getD s.input_ptr 0)),
            input_ptr := s.input_ptr + 1 })) ∧
    run5_reg (Etap5.run_cycle 2 ⟨in_prog, 0, fun _ => 5, fun _ => 0, [], 0, []⟩) 3
      = 0 ∧
    run5_reg (Etap5.run_cycle 2 ⟨in_prog, 0, fun _ => 5, fun _ => 0, [42], 0, []⟩) 3
      = 42 := by
  refine ⟨?_, by decide, by decide⟩
  intro s target_reg io_code ht
  constructor
  · intro h
    unfold Etap5.execute_IN Etap5.writeReg
    rw [if_neg (by omega : ¬ s.input_ptr < s.input_data.length), if_pos ht]
  · intro h
    unfold Etap5.execute_IN Etap5.writeReg
    rw [if_pos h, if_pos ht]

/-- Witness for C9: from the empty input queue, `IN` stores the sentinel
0 into R3 and changes nothing else. -/
theorem claim_C9_eof_sentinel_witness :
    Etap5.execute_IN ⟨in_prog, 0, fun _ => 0, fun _ => 0, [], 0, []⟩ 3 7 =
      .ok ⟨in_prog, 0, updFn (fun _ => 0) 3 0, fun _ => 0, [], 0, []⟩ :=
  (claim_C9_eof_sentinel.1 ⟨in_prog, 0, fun _ => 0, fun _ => 0, [], 0, []⟩ 3 7
    (by decide)).1 (by decide)

/-! ### Register faults are unreachable in the `etap5` engine (C10) -/

theorem and15_lt (x : Nat) : x &&& 0xF < 16 := by
  have h : x &&& 0xF ≤ 0xF := Nat.and_le_right
  omega

theorem readReg_masked (regs : Nat → Int) (x : Nat) :
    Etap5.readReg regs (x &&& 0xF) = .ok (regs (x &&& 0xF)) := by
  unfold Etap5.readReg
  rw [if_pos (and15_lt x)]

theorem writeReg_masked (regs : Nat → Int) (x : Nat) (v : Int) :
    Etap5.writeReg regs (x &&& 0xF) v = .ok (updFn regs (x &&& 0xF) v) := by
  unfold Etap5.writeReg
  rw [if_pos (and15_lt x)]

theorem execute_IN_masked_ok (s : Etap5.VMState) (x c : Nat) :
    ∃ s2, Etap5.execute_IN s (x &&& 0xF) c = .ok s2 := by
  unfold Etap5.execute_IN
  split
  · rw [writeReg_masked]
    exact ⟨_, rfl⟩
  · rw [writeReg_masked]
    exact ⟨_, rfl⟩

theorem execute_OUT_masked_ok (s : Etap5.VMState) (x c : Nat) :
    ∃ s2, Etap5.execute_OUT s (x &&& 0xF) c = .ok s2 := by
  unfold Etap5.execute_OUT
  rw [readReg_masked]
  exact ⟨_, rfl⟩

theorem execute_LDI_masked_ok (s : Etap5.VMState) (x : Nat) (v : Int) :
    ∃ s2, Etap5.execute_LDI s (x &&& 0xF) v = .ok s2 := by
  unfold Etap5.execute_LDI
  rw [writeReg_masked]
  exact ⟨_, rfl⟩

theorem execute_ALU_masked_ok (s : Etap5.VMState) (op : String) (x y : Nat) :
    ∃ s2, Etap5.execute_ALU s op (x &&& 0xF) (y &&& 0xF) = .ok s2 := by
  unfold Etap5.execute_ALU
  simp only [readReg_masked, writeReg_masked]
  exact ⟨_, rfl⟩

theorem execute_LOAD_masked_no_regfault (s : Etap5.VMState) (x a : Nat) :
    Etap5.execute_LOAD s (x &&& 0xF) a = .error (.memIndex a) ∨
      ∃ s2, Etap5.execute_LOAD s (x &&& 0xF) a = .ok s2 := by
  unfold Etap5.execute_LOAD Etap5.readMem
  by_cases h : a < Etap5.MEMORY_SIZE
  · right
    simp only [if_pos h, writeReg_masked]
    exact ⟨_, rfl⟩
  · left
    simp only [if_neg h]

theorem execute_STORE_masked_no_regfault (s : Etap5.VMState) (a y : Nat) :
    Etap5.execute_STORE s a (y &&& 0xF) = .error (.memIndex a) ∨
      ∃ s2, Etap5.execute_STORE s a (y &&& 0xF) = .ok s2 := by
  unfold Etap5.execute_STORE Etap5.writeMem
  simp only [readReg_masked]
  by_cases h : a < Etap5.MEMORY_SIZE
  · right
    simp only [if_pos h]
    exact ⟨_, rfl⟩
  · left
    simp only [if_neg h]

theorem execute_NEQ_masked_no_regfault (s : Etap5.VMState) (x a : Nat) :
    Etap5.execute_NEQ s (x &&& 0xF) a = .error (.memIndex a) ∨
      ∃ s2, Etap5.execute_NEQ s (x &&& 0xF) a = .ok s2 := by
  unfold Etap5.execute_NEQ Etap5.readMem
  simp only [readReg_masked]
  by_cases h : a < Etap5.MEMORY_SIZE
  · right
    simp only [if_pos h, writeReg_masked]
    exact ⟨_, rfl⟩
  · left
    simp only [if_neg h]

/-- Every bounds test on a masked register index passes: the mask `&&& 0xF`
keeps the index below the register-file size 16. -/
theorem ite_and15 {α : Sort _} (x : Nat) (a b : α) :
    (if x &&& 0xF < 16 then a else b) = a :=
  if_pos (and15_lt x)

/-- The final dispatch of `Etap5.step` maps a faulting handler result to
the same fault: if the dispatched step faults, the handler chain produced
exactly that error. -/
theorem result_match_fault {e : Except Etap5.Fault (Etap5.VMState × Nat)}
    {g : Etap5.Fault}
    (h : (match e with
      | .error f => Etap5.StepResult.fault f
      | .ok (s2, pc2) => Etap5.StepResult.running { s2 with pc := pc2 }) =
      .fault g) : e = .error g := by
  rcases e with f | ⟨s2, pc2⟩
  · simp only [] at h
    injection h with h
    rw [h]
  · exact Etap5.StepResult.noConfusion h

/-- The `etap5` opcode table only ever yields one of the eleven
operation names. -/
theorem OPCODES_eq_some {c : Nat} {n : String} (h : Etap5.OPCODES c = some n) :
    n = "NOP" ∨ n = "NEQ" ∨ n = "ADD" ∨ n = "SUB" ∨ n = "JMP" ∨ n = "JZ" ∨
      n = "IN" ∨ n = "OUT" ∨ n = "LDI" ∨ n = "STORE" ∨ n = "LOAD" := by
  unfold Etap5.OPCODES at h
  by_cases h0 : c = 0
  · rw [if_pos h0] at h
    injection h with h
    exact Or.inl h.symm
  rw [if_neg h0] at h
  by_cases h2 : c = 2
  · rw [if_pos h2] at h
    injection h with h
    exact Or.inr (Or.inl h.symm)
  rw [if_neg h2] at h
  by_cases h3 : c = 3
  · rw [if_pos h3] at h
    injection h with h
    exact Or.inr (Or.inr (Or.inl h.symm))
  rw [if_neg h3] at h
  by_cases h4 : c = 4
  · rw [if_pos h4] at h
    injection h with h
    exact Or.inr (Or.inr (Or.inr (Or.inl h.symm)))
  rw [if_neg h4] at h
  by_cases h5 : c = 5
  · rw [if_pos h5] at h
    injection h with h
    exact Or.inr (Or.inr (Or.inr (Or.inr (Or.inl h.symm))))
  rw [if_neg h5] at h
  by_cases h6 : c = 6
  · rw [if_pos h6] at h
    injection h with h
    exact Or.inr (Or.inr (Or.inr (Or.inr (Or.inr (Or.inl h.symm)))))
  rw [if_neg h6] at h
  by_cases h7 : c = 7
  · rw [if_pos h7] at h
    injection h with h
    exact Or.inr (Or.inr (Or.inr (Or.inr (Or.inr (Or.inr (Or.inl h.symm))))))
  rw [if_neg h7] at h
  by_cases h8 : c = 8
  · rw [if_pos h8] at h
    injection h with h
    exact Or.inr (Or.inr (Or.inr (Or.inr (Or.inr (Or.inr (Or.inr
      (Or.inl h.symm)))))))
  rw [if_neg h8] at h
  by_cases h9 : c = 9
  · rw [if_pos h9] at h
    injection h with h
    exact Or.inr (Or.inr (Or.inr (Or.inr (Or.inr (Or.inr (Or.inr (Or.inr
      (Or.inl h.symm))))))))
  rw [if_neg h9] at h
  by_cases hA : c = 10
  · rw [if_pos hA] at h
    injection h with h
    exact Or.inr (Or.inr (Or.inr (Or.inr (Or.inr (Or.inr (Or.inr (Or.inr
      (Or.inr (Or.inl h.symm)))))))))
  rw [if_neg hA] at h
  by_cases hC : c = 12
  · rw [if_pos hC] at h
    injection h with h
    exact Or.inr (Or.inr (Or.inr (Or.inr (Or.inr (Or.inr (Or.inr (Or.inr
      (Or.inr (Or.inr h.symm)))))))))
  rw [if_neg hC] at h
  exact Option.noConfusion h

set_option maxHeartbeats 2000000 in
/-- C10 (implicit): in the final-revision engine every register index
decoded from an instruction word is masked with `0xF` before any
register-file access, so one fetch-decode-execute step — from every
machine state, hence for every possible 5-byte word and register file —
can never raise a register-index-out-of-range fault (it may still raise
unknown-opcode or memory faults). -/
theorem claim_C10_register_fault_unreachable :
    ∀ s : Etap5.VMState, step5_is_reg_fault s = false := by
  intro s
  obtain ⟨prog, pc, regs, mem, inp, ptr, out⟩ := s
  have h : ∀ i, Etap5.step ⟨prog, pc, regs, mem, inp, ptr, out⟩ ≠
      .fault (.regIndex i) := by
    intro i hstep
    unfold Etap5.step Etap5.execute_IN Etap5.execute_OUT Etap5.execute_LDI
      Etap5.execute_ALU Etap5.execute_LOAD Etap5.execute_STORE
      Etap5.execute_NEQ Etap5.readReg Etap5.readMem Etap5.writeReg
      Etap5.writeMem at hstep
    simp only [ite_and15] at hstep
    set w : Nat :=
      fromBytesBE (List.take Etap5.INSTRUCTION_SIZE (List.drop pc prog)) with hw
    clear_value w
    set bs : List Nat := List.take Etap5.INSTRUCTION_SIZE (List.drop pc prog)
      with hbs
    clear_value bs
    clear hw hbs
    by_cases h1 : pc < prog.length
    case neg =>
      rw [if_neg h1] at hstep
      exact Etap5.StepResult.noConfusion hstep
    rw [if_pos h1] at hstep
    by_cases h2 : bs.length ≠ Etap5.INSTRUCTION_SIZE
    case pos =>
      rw [if_pos h2] at hstep
      exact Etap5.StepResult.noConfusion hstep
    rw [if_neg h2] at hstep
    rcases hop : Etap5.OPCODES (w &&& 15) with _ | name
    · rw [hop] at hstep
      simp at hstep
    · rw [hop] at hstep
      have hchain := result_match_fault hstep
      clear hstep
      rcases OPCODES_eq_some hop with
        h3 | h3 | h3 | h3 | h3 | h3 | h3 | h3 | h3 | h3 | h3 <;> subst h3
      · simp at hchain
      · simp at hchain
        by_cases hm : w >>> 8 &&& 0x7FFFFFFF < Etap5.MEMORY_SIZE
        · rw [if_pos hm] at hchain
          simp at hchain
        · rw [if_neg hm] at hchain
          simp at hchain
      · simp at hchain
      · simp at hchain
      · simp at hchain
      · simp at hchain
      · simp at hchain
        by_cases hin : ptr < inp.length
        · rw [if_pos hin] at hchain
          simp at hchain
        · rw [if_neg hin] at hchain
          simp at hchain
      · simp at hchain
      · simp at hchain
      · simp at hchain
        by_cases hm : w >>> 4 &&& 0x7FFFFFFF < Etap5.MEMORY_SIZE
        · rw [if_pos hm] at hchain
          simp at hchain
        · rw [if_neg hm] at hchain
          simp at hchain
      · simp at hchain
        by_cases hm : w >>> 8 &&& 0x7FFFFFFF < Etap5.MEMORY_SIZE
        · rw [if_pos hm] at hchain
          simp at hchain
        · rw [if_neg hm] at hchain
          simp at hchain
  cases hs : Etap5.step ⟨prog, pc, regs, mem, inp, ptr, out⟩ with
  | halted s2 => simp [step5_is_reg_fault, hs]
  | running s2 => simp [step5_is_reg_fault, hs]
  | fault f =>
    cases f with
    | unknownOpcode op pc2 => simp [step5_is_reg_fault, hs]
    | regIndex i => exact absurd hs (h i)
    | memIndex a => simp [step5_is_reg_fault, hs]

end UVM
